import Mathlib

/-!
# Freight core: a shallow embedding in Lean 4

This file embeds the core of the Freight tree-walking execution engine
(`src/execution_engine.rs`, `src/function/*.rs`, `src/error.rs`,
`src/collection_pool.rs`) and proves or refutes the frozen claims about it.

Modelling conventions:

* Rust `usize` values are modelled as `Nat`; `usize` arithmetic that can
  underflow (and hence panic in a debug build) is modelled explicitly where
  it matters (`ArgCount::new` on an excluded end bound of `0`).
* The engine is generic over a host type system (`TS: TypeSystem`); the
  embedding is parameterised by a value type `V` and a `Host V` bundle of
  the host-supplied operations (`Value` trait, operators, initializers,
  native functions).  Host operators / initializers / natives are stored in
  expressions as indices into host tables, since Lean inductives cannot
  store functions that consume the engine state.
* Rust's `&mut` state is threaded explicitly: every operation takes and
  returns an `EngineState`.
* Rust panics (slice index out of bounds, iterator `unwrap`, the stack-pool
  overflow `panic!`) are modelled by the distinguished outcome
  `Res.panicked`.
* The mutually recursive evaluator is total via a fuel parameter; fuel
  exhaustion is the distinguished outcome `Res.oof`, which is a model
  artefact and not a behaviour of the program.
* The crate is modelled as compiled with the `variadic_functions` feature
  for `arg_count.rs` and `execution_engine.rs` (both files support it); the
  `cfg(feature = "variadic_functions")` block inside `Function::call` in
  `function/mod.rs` refers to an `ArgCount` with `Option`-typed bounds from
  a different revision and cannot compile against this crate's `ArgCount`,
  so `Function::call` is modelled as compiled without that block.
-/

namespace Freight

/-- `FreightError` from `src/error.rs`. -/
inductive FreightError where
  | InvalidInvocationTarget : FreightError
  | IncorrectArgumentCount (expected_min : Nat) (expected_max : Option Nat)
      (actual : Nat) : FreightError
  | Return (target : Nat) : FreightError
deriving Repr, DecidableEq

/-- `ArgCount` from `src/function/arg_count.rs` (with the
`variadic_functions` feature enabled, so the `Variadic` variant exists). -/
inductive ArgCount where
  | Fixed (n : Nat) : ArgCount
  | Range (min max : Nat) : ArgCount
  | Variadic (min max : Nat) : ArgCount
deriving Repr, DecidableEq

namespace ArgCount

/-- `ArgCount::min`. -/
def min : ArgCount → Nat
  | .Range mn _ => mn
  | .Fixed f => f
  | .Variadic mn _ => mn

/-- `ArgCount::max`. -/
def max : ArgCount → Option Nat
  | .Range _ mx => some mx
  | .Fixed f => some f
  | .Variadic _ _ => none

/-- `ArgCount::max_capped`. -/
def max_capped : ArgCount → Nat
  | .Range _ mx => mx
  | .Fixed f => f
  | .Variadic _ mx => mx

/-- `ArgCount::valid_arg_count`. -/
def valid_arg_count : ArgCount → Nat → Bool
  | .Range mn mx, v => decide (v ≥ mn) && decide (v ≤ mx)
  | .Fixed f, v => decide (v = f)
  | .Variadic mn _, v => decide (v ≥ mn)

/-- `ArgCount::stack_size`. -/
def stack_size : ArgCount → Nat
  | .Fixed f => f
  | .Range _ mx => mx
  | .Variadic _ mx => mx + 1

end ArgCount

/-- A `std::ops::Bound<usize>` as used by the `RangeBounds` argument of
`ArgCount::new`. -/
inductive RBound where
  | Included (n : Nat) : RBound
  | Excluded (n : Nat) : RBound
  | Unbounded : RBound
deriving Repr, DecidableEq

/-- The normalised start bound (`Included m ↦ m`, `Excluded m ↦ m + 1`,
`Unbounded ↦ 0`), common to every constructor in `arg_count.rs`. -/
def RBound.norm_start : RBound → Nat
  | .Included m => m
  | .Excluded m => m + 1
  | .Unbounded => 0

/-- The normalised end bound. `Excluded m` computes `m - 1` on `usize`,
which panics (debug overflow) when `m = 0`; that case is `none`.
`Unbounded` stays `some none` (an absent bound). -/
def RBound.norm_end : RBound → Option (Option Nat)
  | .Included m => some (some m)
  | .Excluded m => if m = 0 then none else some (some (m - 1))
  | .Unbounded => some none

/-- `ArgCount::new` as compiled WITHOUT the `variadic_functions` feature
(`arg_count.rs` lines 18-38): an absent end bound defaults to `0`
(`unwrap_or(0)`), and equal normalised bounds collapse to `Fixed`.
`none` models a panic. -/
def arg_count_new (lo hi : RBound) : Option ArgCount :=
  match hi.norm_end with
  | none => none
  | some mx' =>
    let mn := lo.norm_start
    let mx := mx'.getD 0
    some (if mn = mx then ArgCount.Fixed mn else ArgCount.Range mn mx)

/-- `ArgCount::new` as compiled WITH the `variadic_functions` feature
(`arg_count.rs` lines 39-57): a present end bound always yields `Range`
(even when equal to the start bound); an absent one yields
`Variadic { min, max: min }`.  `none` models a panic. -/
def arg_count_new_v (lo hi : RBound) : Option ArgCount :=
  match hi.norm_end with
  | none => none
  | some (some mx) => some (ArgCount.Range lo.norm_start mx)
  | some none => some (ArgCount.Variadic lo.norm_start lo.norm_start)

/-- `ArgCount::new_variadic` (`arg_count.rs` lines 59-77). -/
def arg_count_new_variadic (lo hi : RBound) : Option ArgCount :=
  match hi.norm_end with
  | none => none
  | some (some mx) => some (ArgCount.Variadic lo.norm_start mx)
  | some none => some (ArgCount.Variadic lo.norm_start lo.norm_start)

/-- `StackLayout` from `src/function/function_ref.rs`: a `u128` bit mask,
bit `slot` set means the slot is marshalled with `into_ref`
(an "alloc" slot), clear means it is marshalled with `clone`. -/
structure StackLayout where
  mask : Nat
deriving Repr, DecidableEq

namespace StackLayout

/-- `StackLayout::all_alloc` (`u128::MAX`). -/
def all_alloc : StackLayout := ⟨2 ^ 128 - 1⟩

/-- `StackLayout::no_alloc`. -/
def no_alloc : StackLayout := ⟨0⟩

/-- `StackLayout::is_alloc` (`self.0 & (1 << slot) != 0`). -/
def is_alloc (l : StackLayout) (slot : Nat) : Bool := l.mask.testBit slot

end StackLayout

/-- `VariableType` from the expression module (reconstructed from the
`Expression::Variable` match arms of `evaluate_internal` and § 3 of the
spec: `Stack(offset)`, `Captured(index)`, `Global(address)`). -/
inductive VariableType where
  | Stack (offset : Nat) : VariableType
  | Captured (index : Nat) : VariableType
  | Global (address : Nat) : VariableType
deriving Repr, DecidableEq

/-- `FunctionType<TS>` from `src/function/function_type.rs`.  A native
function pointer is modelled as an index into the host's native table; a
`CapturingRef`'s pooled shared slice is modelled by its contents. -/
inductive FunctionType (V : Type) where
  | Static : FunctionType V
  | CapturingDef (capture : List VariableType) : FunctionType V
  | CapturingRef (captures : List V) : FunctionType V
  | Native (fid : Nat) : FunctionType V
deriving Repr

/-- `FunctionRef<TS>` from `src/function/function_ref.rs`. -/
structure FunctionRef (V : Type) where
  arg_count : ArgCount
  stack_size : Nat
  location : Nat
  function_type : FunctionType V
  layout : StackLayout

/-- `PartialEq for FunctionRef` (`function_ref.rs` lines 39-47): two
references compare by `location` alone, except that a `Native` reference
never equals a non-`Native` one. -/
def function_ref_eq {V : Type} (a b : FunctionRef V) : Bool :=
  match a.function_type, b.function_type with
  | FunctionType.Native _, FunctionType.Native _ => a.location == b.location
  | FunctionType.Native _, _ => false
  | _, FunctionType.Native _ => false
  | _, _ => a.location == b.location

/-- Whether a `FunctionType` is the `Native` variant. -/
def FunctionType.isNative {V : Type} : FunctionType V → Bool
  | FunctionType.Native _ => true
  | _ => false

/-- `Expression<TS>`: the evaluable tree.  The enum declaration itself is
not among the checked-in files; the variants are reconstructed verbatim
from the match arms of `ExecutionEngine::evaluate_internal`
(`execution_engine.rs` lines 203-299).  `Expression::Initialize` is named
`InitExpr` here; host operators, initializers and native functions are
table indices (see `Host`). -/
inductive Expression (V : Type) where
  | RawValue (v : V) : Expression V
  | Variable (var : VariableType) : Expression V
  | BinaryOpEval (op : Nat) (l r : Expression V) : Expression V
  | UnaryOpEval (op : Nat) (e : Expression V) : Expression V
  | StaticFunctionCall (f : FunctionRef V) (args : List (Expression V)) : Expression V
  | DynamicFunctionCall (f : Expression V) (args : List (Expression V)) : Expression V
  | NativeFunctionCall (fid : Nat) (args : List (Expression V)) : Expression V
  | FunctionCapture (f : FunctionRef V) : Expression V
  | AssignStack (addr : Nat) (e : Expression V) : Expression V
  | AssignGlobal (addr : Nat) (e : Expression V) : Expression V
  | AssignDynamic (l r : Expression V) : Expression V
  | InitExpr (init : Nat) (args : List (Expression V)) : Expression V
  | ReturnTarget (target : Nat) (e : Expression V) : Expression V
  | Return (target : Nat) (e : Expression V) : Expression V

/-- `Function<TS>` (the stored body) from `src/function/mod.rs`:
`{ expressions, stack_size, arg_count, return_target }`. -/
structure Function (V : Type) where
  expressions : List (Expression V)
  stack_size : Nat
  arg_count : ArgCount
  return_target : Nat

/-- The host-supplied type-system operations required of `TS::Value`,
`TS::BinaryOp`, `TS::UnaryOp`, the initializers and the native functions
(`src/value.rs`, `src/operators/*`).  Operators, initializers and natives
are looked up by the index stored in the expression.  Natives and
initializers are modelled as pure on their arguments (the spec treats them
as external collaborators; no claim depends on a native mutating the
engine). -/
structure Host (V : Type) where
  /-- `Default::default()` — the null/unset value. -/
  defaultV : V
  /-- `Value::uninitialized_reference`. -/
  uninitialized_reference : V
  /-- `Clone::clone`. -/
  clone : V → V
  /-- `Value::dupe_ref`. -/
  dupe_ref : V → V
  /-- `Value::into_ref`. -/
  into_ref : V → V
  /-- `Value::assign` — old contents of the cell, assigned value, new
  contents of the cell. -/
  assignV : V → V → V
  /-- `Value::cast_to_function`. -/
  cast_to_function : V → Option (FunctionRef V)
  /-- `From<FunctionRef> for Value` (`func.into()`). -/
  from_function_ref : FunctionRef V → V
  /-- `Value::gen_list` (variadic tail list). -/
  gen_list : List V → V
  /-- `UnaryOperator::apply_1`, by operator index. -/
  apply_1 : Nat → V → V
  /-- `BinaryOperator::apply_2`, by operator index. -/
  apply_2 : Nat → V → V → V
  /-- `Initializer::initialize`, by initializer index. -/
  initCall : Nat → List V → V
  /-- A native function, by index: may fail with any `FreightError`. -/
  native : Nat → List V → Except FreightError V

/-- `StackPool<T>` from `src/execution_engine.rs` lines 18-55: a
pre-allocated buffer handed out as bump-allocated slices. -/
structure StackPool (V : Type) where
  stack : List V
  base : Nat

namespace StackPool

/-- `StackPool::with_capacity`: `capacity` default-constructed slots,
`base = 0`. -/
def with_capacity {V : Type} (h : Host V) (capacity : Nat) : StackPool V :=
  { stack := List.replicate capacity h.defaultV, base := 0 }

/-- `Default for StackPool`: `with_capacity(10000)`. -/
def default_pool {V : Type} (h : Host V) : StackPool V := with_capacity h 10000

/-- `StackPool::request` (lines 32-44): panics (`none`) when
`base + capacity >= stack.len()`; otherwise returns the frame offset (the
old `base`) and bumps `base`. -/
def request {V : Type} (p : StackPool V) (capacity : Nat) :
    Option (Nat × StackPool V) :=
  if p.base + capacity ≥ p.stack.length then none
  else some (p.base, { p with base := p.base + capacity })

/-- `StackPool::release` (lines 46-48): `base -= capacity`. -/
def release {V : Type} (p : StackPool V) (capacity : Nat) : StackPool V :=
  { p with base := p.base - capacity }

/-- Run a sequence of `request`s (one per pretended nested call),
propagating the panic. -/
def request_all {V : Type} (p : StackPool V) : List Nat → Option (StackPool V)
  | [] => some p
  | cap :: rest =>
    match p.request cap with
    | none => none
    | some (_, p') => p'.request_all rest

end StackPool

/-- `ExecutionEngine<TS>` (`execution_engine.rs` lines 57-66).  The
`rc_pool` capture-slice pool and the opaque `GlobalContext` are not part
of the state the claims observe; the pooled capture slice built by
`FunctionCapture` is modelled by its contents. -/
structure EngineState (V : Type) where
  num_globals : Nat
  globals : List V
  functions : List (Function V)
  next_return_target : Nat
  return_value : V
  stack : StackPool V

namespace EngineState

/-- `ExecutionEngine::new` (lines 69-80). -/
def new {V : Type} (h : Host V) : EngineState V :=
  { num_globals := 0
    globals := []
    functions := []
    next_return_target := 0
    return_value := h.defaultV
    stack := StackPool.default_pool h }

/-- `ExecutionEngine::create_return_target` (lines 108-111). -/
def create_return_target {V : Type} (e : EngineState V) : Nat × EngineState V :=
  (e.next_return_target, { e with next_return_target := e.next_return_target + 1 })

/-- `ExecutionEngine::create_global` (lines 113-116): appends one
uninitialized reference cell and returns its index.  Note that
`num_globals` is NOT updated. -/
def create_global {V : Type} (h : Host V) (e : EngineState V) : Nat × EngineState V :=
  (e.globals.length, { e with globals := e.globals ++ [h.uninitialized_reference] })

/-- `ExecutionEngine::reset_globals` (lines 118-120): re-populates
`globals` with `num_globals` uninitialized cells. -/
def reset_globals {V : Type} (h : Host V) (e : EngineState V) : EngineState V :=
  { e with globals := List.replicate e.num_globals h.uninitialized_reference }

/-- `n` successive `create_global` calls. -/
def create_globals_iter {V : Type} (h : Host V) : Nat → EngineState V → EngineState V
  | 0, e => e
  | n + 1, e => create_globals_iter h n (create_global h e).2

end EngineState

/-- The outcome of one evaluation / call.  `panicked` models a Rust panic
(out-of-bounds index, iterator `unwrap`, the stack-pool overflow
`panic!`); `oof` is fuel exhaustion, a model artefact only. -/
inductive Res (V : Type) where
  | ok (v : V) : Res V
  | err (e : FreightError) : Res V
  | panicked : Res V
  | oof : Res V
deriving Repr

/-- Write one slot of the engine's stack-pool buffer (the `StackPool`
hands out raw-pointer slices into its own `stack` vector, so a write
through a frame slice is a write into that buffer). -/
def write_stack_data {V : Type} (e : EngineState V) (idx : Nat) (v : V) :
    EngineState V :=
  { e with stack := { e.stack with stack := e.stack.stack.set idx v } }

/-- Read the whole frame slice `[off, off+len)` out of the pool buffer. -/
def read_frame {V : Type} (e : EngineState V) (off len : Nat) : List V :=
  (e.stack.stack.drop off).take len

/-- Index `a` of the current frame slice (`stack[a]`): `none` models the
slice-index panic when `a` is outside the frame. -/
def frame_get {V : Type} (e : EngineState V) (off flen a : Nat) : Option V :=
  if a < flen then e.stack.stack.get? (off + a) else none

/-- `OrReturn::or_return` (`src/error.rs` lines 54-67): catch exactly the
matching `Return{target = id}`, yielding `mem::take(&mut
engine.return_value)`; everything else passes through unchanged. -/
def or_return {V : Type} (h : Host V) :
    Res V × EngineState V → Nat → Res V × EngineState V
  | (Res.err (FreightError.Return t), e), id =>
    if t = id then (Res.ok e.return_value, { e with return_value := h.defaultV })
    else (Res.err (FreightError.Return t), e)
  | r, _ => r

/-- The zero-fill loop of `call_internal` (lines 159-165): slots
`[i, i+count)` of the frame are filled with an uninitialized reference
(alloc slots) or the default value. -/
def fill_rest {V : Type} (h : Host V) (layout : StackLayout) (off : Nat) :
    Nat → Nat → EngineState V → EngineState V
  | _, 0, e => e
  | i, count + 1, e =>
    let v := if layout.is_alloc i then h.uninitialized_reference else h.defaultV
    fill_rest h layout off (i + 1) count (write_stack_data e (off + i) v)

/-- The capture-resolution iterator of the `FunctionCapture` arm
(lines 247-251): each capture site is `dupe_ref`'d from the current
environment; `none` models an out-of-bounds index panic. -/
def resolve_captures {V : Type} (h : Host V) (e : EngineState V)
    (off flen : Nat) (captured : List V) : List VariableType → Option (List V)
  | [] => some []
  | var :: rest =>
    let cell : Option V :=
      match var with
      | VariableType.Captured a => (captured.get? a).map h.dupe_ref
      | VariableType.Stack a => (frame_get e off flen a).map h.dupe_ref
      | VariableType.Global a => (e.globals.get? a).map h.dupe_ref
    match cell with
    | none => none
    | some v =>
      match resolve_captures h e off flen captured rest with
      | none => none
      | some vs => some (v :: vs)

/-- An argument source for `call_internal`: the Rust code passes a
stateful `FnMut` closure, which either pulls from the exact-size iterator
of `call`, or evaluates the next argument expression of a
`StaticFunctionCall` / `DynamicFunctionCall` in the caller's frame. -/
inductive ArgSrc (V : Type) where
  | vals (vs : List V) : ArgSrc V
  | exprs (es : List (Expression V)) (off flen : Nat) (captured : List V) : ArgSrc V

mutual

/-- `ExecutionEngine::evaluate_internal` (`execution_engine.rs` lines
197-301).  `off`/`flen` locate the current frame slice inside the pool
buffer; `captured` is the read-only capture slice. -/
def evaluate {V : Type} (h : Host V) :
    Nat → EngineState V → Expression V → Nat → Nat → List V →
    Res V × EngineState V
  | 0, e, _, _, _, _ => (Res.oof, e)
  | fuel + 1, e, expr, off, flen, captured =>
    match expr with
    | Expression.RawValue v => (Res.ok (h.clone v), e)
    | Expression.Variable var =>
      match var with
      | VariableType.Captured a =>
        match captured.get? a with
        | some v => (Res.ok (h.dupe_ref v), e)
        | none => (Res.panicked, e)
      | VariableType.Stack a =>
        match frame_get e off flen a with
        | some v => (Res.ok (h.dupe_ref v), e)
        | none => (Res.panicked, e)
      | VariableType.Global a =>
        match e.globals.get? a with
        | some v => (Res.ok (h.dupe_ref v), e)
        | none => (Res.panicked, e)
    | Expression.BinaryOpEval op l r =>
      match evaluate h fuel e l off flen captured with
      | (Res.ok lv, e1) =>
        match evaluate h fuel e1 r off flen captured with
        | (Res.ok rv, e2) => (Res.ok (h.apply_2 op lv rv), e2)
        | other => other
      | other => other
    | Expression.UnaryOpEval op x =>
      match evaluate h fuel e x off flen captured with
      | (Res.ok v, e1) => (Res.ok (h.apply_1 op v), e1)
      | other => other
    | Expression.StaticFunctionCall f args =>
      call_internal h fuel e f (ArgSrc.exprs args off flen captured) args.length
    | Expression.DynamicFunctionCall fe args =>
      match evaluate h fuel e fe off flen captured with
      | (Res.ok v, e1) =>
        match h.cast_to_function v with
        | none => (Res.err FreightError.InvalidInvocationTarget, e1)
        | some f =>
          call_internal h fuel e1 f (ArgSrc.exprs args off flen captured) args.length
      | other => other
    | Expression.NativeFunctionCall fid args =>
      match e.stack.request args.length with
      | none => (Res.panicked, e)
      | some (coff, pool') =>
        native_args_loop h fuel { e with stack := pool' } fid args 0 coff
          args.length off flen captured
    | Expression.FunctionCapture f =>
      match f.function_type with
      | FunctionType.CapturingDef capture =>
        match resolve_captures h e off flen captured capture with
        | none => (Res.panicked, e)
        | some caps =>
          (Res.ok (h.from_function_ref
            { f with function_type := FunctionType.CapturingRef caps }), e)
      | _ => (Res.err FreightError.InvalidInvocationTarget, e)
    | Expression.AssignStack a x =>
      match evaluate h fuel e x off flen captured with
      | (Res.ok v, e1) =>
        match frame_get e1 off flen a with
        | none => (Res.panicked, e1)
        | some old =>
          (Res.ok h.defaultV, write_stack_data e1 (off + a) (h.assignV old v))
      | other => other
    | Expression.AssignGlobal a x =>
      match evaluate h fuel e x off flen captured with
      | (Res.ok v, e1) =>
        match e1.globals.get? a with
        | none => (Res.panicked, e1)
        | some old =>
          (Res.ok h.defaultV,
            { e1 with globals := e1.globals.set a (h.assignV old v) })
      | other => other
    | Expression.AssignDynamic l r =>
      match evaluate h fuel e l off flen captured with
      | (Res.ok lv, e1) =>
        match evaluate h fuel e1 r off flen captured with
        | (Res.ok rv, e2) =>
          -- `target.assign(value)` writes through the duplicated handle;
          -- the write-through effect lives inside the host value and the
          -- updated handle is a local here, exactly as in the source
          let _ := h.assignV (h.dupe_ref lv) rv
          (Res.ok h.defaultV, e2)
        | other => other
      | other => other
    | Expression.InitExpr op args =>
      match eval_list h fuel e args off flen captured with
      | (Res.ok vs, e1) => (Res.ok (h.initCall op vs), e1)
      | (Res.err er, e1) => (Res.err er, e1)
      | (Res.panicked, e1) => (Res.panicked, e1)
      | (Res.oof, e1) => (Res.oof, e1)
    | Expression.ReturnTarget t x =>
      or_return h (evaluate h fuel e x off flen captured) t
    | Expression.Return t x =>
      match evaluate h fuel e x off flen captured with
      | (Res.ok v, e1) =>
        (Res.err (FreightError.Return t), { e1 with return_value := v })
      | other => other
termination_by structural fuel => fuel

/-- The argument loop of `Expression::NativeFunctionCall` (lines 264-272):
each argument is evaluated and cloned into the requested scratch slice;
an evaluation error or a native error propagates WITHOUT releasing the
slice (the `?` operators precede the `release`). -/
def native_args_loop {V : Type} (h : Host V) :
    Nat → EngineState V → Nat → List (Expression V) → Nat → Nat → Nat →
    Nat → Nat → List V → Res V × EngineState V
  | 0, e, _, _, _, _, _, _, _, _ => (Res.oof, e)
  | _fuel + 1, e, fid, [], _, coff, cap, _, _, _ =>
    match h.native fid (read_frame e coff cap) with
    | Except.error er => (Res.err er, e)
    | Except.ok v => (Res.ok v, { e with stack := e.stack.release cap })
  | fuel + 1, e, fid, a :: rest, i, coff, cap, off, flen, captured =>
    match evaluate h fuel e a off flen captured with
    | (Res.ok v, e1) =>
      native_args_loop h fuel (write_stack_data e1 (coff + i) (h.clone v))
        fid rest (i + 1) coff cap off flen captured
    | other => other
termination_by structural fuel => fuel

/-- The collection loop of `Expression::Initialize` (lines 285-291). -/
def eval_list {V : Type} (h : Host V) :
    Nat → EngineState V → List (Expression V) → Nat → Nat → List V →
    Res (List V) × EngineState V
  | 0, e, _, _, _, _ => (Res.oof, e)
  | _fuel + 1, e, [], _, _, _ => (Res.ok [], e)
  | fuel + 1, e, a :: rest, off, flen, captured =>
    match evaluate h fuel e a off flen captured with
    | (Res.ok v, e1) =>
      match eval_list h fuel e1 rest off flen captured with
      | (Res.ok vs, e2) => (Res.ok (v :: vs), e2)
      | (Res.err er, e2) => (Res.err er, e2)
      | (Res.panicked, e2) => (Res.panicked, e2)
      | (Res.oof, e2) => (Res.oof, e2)
    | (Res.err er, e1) => (Res.err er, e1)
    | (Res.panicked, e1) => (Res.panicked, e1)
    | (Res.oof, e1) => (Res.oof, e1)
termination_by structural fuel => fuel

/-- One pull from the argument closure of `call_internal` (`args(self)?`):
either the next value of the exact-size iterator (`call`), or the
evaluation of the next argument expression in the caller's frame.
An exhausted iterator `unwrap`s, i.e. panics. -/
def pull_arg {V : Type} (h : Host V) :
    Nat → EngineState V → ArgSrc V → Nat → Res V × EngineState V
  | 0, e, _, _ => (Res.oof, e)
  | _fuel + 1, e, ArgSrc.vals vs, i =>
    match vs.get? i with
    | some v => (Res.ok v, e)
    | none => (Res.panicked, e)
  | fuel + 1, e, ArgSrc.exprs es off flen captured, i =>
    match es.get? i with
    | some ex => evaluate h fuel e ex off flen captured
    | none => (Res.panicked, e)
termination_by structural fuel => fuel

/-- The argument-marshalling loop of `call_internal` (lines 147-158):
pull each of the first `mx` arguments, materialise it per the layout bit
(`into_ref` for alloc slots, `clone` otherwise) and store it in the frame.
A pull error propagates WITHOUT releasing the frame slice.  Writing past
the requested slice (`i ≥ stack_size`) panics. -/
def marshal_loop {V : Type} (h : Host V) :
    Nat → EngineState V → FunctionRef V → ArgSrc V → Nat → Nat → Nat →
    Res Unit × EngineState V
  | 0, e, _, _, _, _, _ => (Res.oof, e)
  | fuel + 1, e, f, src, i, mx, off =>
    if i < mx then
      match pull_arg h fuel e src i with
      | (Res.ok v, e1) =>
        if i < f.stack_size then
          let v' := if f.layout.is_alloc i then h.into_ref v else h.clone v
          marshal_loop h fuel (write_stack_data e1 (off + i) v') f src (i + 1) mx off
        else (Res.panicked, e1)
      | (Res.err er, e1) => (Res.err er, e1)
      | (Res.panicked, e1) => (Res.panicked, e1)
      | (Res.oof, e1) => (Res.oof, e1)
    else (Res.ok Unit.unit, e)
termination_by structural fuel => fuel

/-- The variadic-overflow collection loop of `call_internal`
(lines 167-174): arguments `[i, arg_count)` are pulled into a vector. -/
def vargs_loop {V : Type} (h : Host V) :
    Nat → EngineState V → ArgSrc V → Nat → Nat → Res (List V) × EngineState V
  | 0, e, _, _, _ => (Res.oof, e)
  | fuel + 1, e, src, i, n =>
    if i < n then
      match pull_arg h fuel e src i with
      | (Res.ok v, e1) =>
        match vargs_loop h fuel e1 src (i + 1) n with
        | (Res.ok vs, e2) => (Res.ok (v :: vs), e2)
        | (Res.err er, e2) => (Res.err er, e2)
        | (Res.panicked, e2) => (Res.panicked, e2)
        | (Res.oof, e2) => (Res.oof, e2)
      | (Res.err er, e1) => (Res.err er, e1)
      | (Res.panicked, e1) => (Res.panicked, e1)
      | (Res.oof, e1) => (Res.oof, e1)
    else (Res.ok [], e)
termination_by structural fuel => fuel

/-- The dispatch-and-release tail of `call_internal` (lines 176-189):
native functions are applied to the frame slice and the slice is released
whatever the result; otherwise the function record is fetched
(panicking on an out-of-range index), the body is run (or the call fails
with `InvalidInvocationTarget` for a bare `CapturingDef`), and the slice
is released whatever the result. -/
def dispatch_call {V : Type} (h : Host V) :
    Nat → EngineState V → FunctionRef V → Nat → Res V × EngineState V
  | 0, e, _, _ => (Res.oof, e)
  | fuel + 1, e, f, off =>
    match f.function_type with
    | FunctionType.Native fid =>
      let value : Res V :=
        match h.native fid (read_frame e off f.stack_size) with
        | Except.ok v => Res.ok v
        | Except.error er => Res.err er
      (value, { e with stack := e.stack.release f.stack_size })
    | _ =>
      match e.functions.get? f.location with
      | none => (Res.panicked, e)
      | some fn =>
        let r :=
          match f.function_type with
          | FunctionType.CapturingRef caps => func_call h fuel e fn off f.stack_size caps
          | FunctionType.Static => func_call h fuel e fn off f.stack_size []
          | FunctionType.CapturingDef _ => (Res.err FreightError.InvalidInvocationTarget, e)
          | FunctionType.Native _ => (Res.panicked, e)
        match r with
        | (Res.panicked, e1) => (Res.panicked, e1)
        | (Res.oof, e1) => (Res.oof, e1)
        | (v, e1) => (v, { e1 with stack := e1.stack.release f.stack_size })
termination_by structural fuel => fuel

/-- `ExecutionEngine::call_internal` (`execution_engine.rs` lines
133-190): request a frame slice sized `stack_size` (BEFORE validating the
arity), validate the arity, marshal the named arguments, zero-fill the
rest, collect the variadic tail, dispatch.  The early `return` on an
arity mismatch, and a `?` on an argument pull, skip the release. -/
def call_internal {V : Type} (h : Host V) :
    Nat → EngineState V → FunctionRef V → ArgSrc V → Nat →
    Res V × EngineState V
  | 0, e, _, _, _ => (Res.oof, e)
  | fuel + 1, e, f, src, arg_count =>
    match e.stack.request f.stack_size with
    | none => (Res.panicked, e)
    | some (off, pool') =>
      let e1 := { e with stack := pool' }
      if f.arg_count.valid_arg_count arg_count then
        let mx := Nat.min f.arg_count.max_capped arg_count
        match marshal_loop h fuel e1 f src 0 mx off with
        | (Res.ok _, e2) =>
          let e3 := fill_rest h f.layout off mx (f.stack_size - mx) e2
          match f.arg_count with
          | ArgCount.Variadic _ _ =>
            match vargs_loop h fuel e3 src mx arg_count with
            | (Res.ok vargs, e4) =>
              if f.arg_count.max_capped < f.stack_size then
                dispatch_call h fuel
                  (write_stack_data e4 (off + f.arg_count.max_capped) (h.gen_list vargs))
                  f off
              else (Res.panicked, e4)
            | (Res.err er, e4) => (Res.err er, e4)
            | (Res.panicked, e4) => (Res.panicked, e4)
            | (Res.oof, e4) => (Res.oof, e4)
          | _ => dispatch_call h fuel e3 f off
        | (Res.err er, e2) => (Res.err er, e2)
        | (Res.panicked, e2) => (Res.panicked, e2)
        | (Res.oof, e2) => (Res.oof, e2)
      else
        (Res.err (FreightError.IncorrectArgumentCount f.arg_count.min
          f.arg_count.max arg_count), e1)
termination_by structural fuel => fuel

/-- `Function::call` (`src/function/mod.rs` lines 29-88), as compiled
without `variadic_functions` (see the header note): the arity pre-check
against the frame length, the empty-body default, then the expression
loop (`dbg!` is a no-op). -/
def func_call {V : Type} (h : Host V) :
    Nat → EngineState V → Function V → Nat → Nat → List V →
    Res V × EngineState V
  | 0, e, _, _, _, _ => (Res.oof, e)
  | fuel + 1, e, fn, off, flen, captured =>
    let arity_bad : Bool :=
      match fn.arg_count.max with
      | some mx => decide (mx > flen)
      | none => false
    if arity_bad then
      (Res.err (FreightError.IncorrectArgumentCount fn.arg_count.min
        fn.arg_count.max flen), e)
    else if fn.expressions.isEmpty then
      (Res.ok h.defaultV, e)
    else
      body_loop h fuel e fn.expressions fn.return_target off flen captured
termination_by structural fuel => fuel

/-- The expression loop of `Function::call` (lines 76-87): every
non-final expression is evaluated with an `if let Err(Return{target})`
— a matching target takes `mem::take(&mut engine.return_value)`, a
mismatched one re-raises, and every other outcome (including a
non-`Return` error) falls through to the next expression; the final
expression goes through `or_return`. -/
def body_loop {V : Type} (h : Host V) :
    Nat → EngineState V → List (Expression V) → Nat → Nat → Nat → List V →
    Res V × EngineState V
  | 0, e, _, _, _, _, _ => (Res.oof, e)
  | _fuel + 1, e, [], _, _, _, _ => (Res.ok h.defaultV, e)
  | fuel + 1, e, [last], rt, off, flen, captured =>
    or_return h (evaluate h fuel e last off flen captured) rt
  | fuel + 1, e, x :: y :: rest, rt, off, flen, captured =>
    match evaluate h fuel e x off flen captured with
    | (Res.err (FreightError.Return t), e1) =>
      if t = rt then (Res.ok e1.return_value, { e1 with return_value := h.defaultV })
      else (Res.err (FreightError.Return t), e1)
    | (Res.ok _, e1) => body_loop h fuel e1 (y :: rest) rt off flen captured
    | (Res.err _, e1) => body_loop h fuel e1 (y :: rest) rt off flen captured
    | (Res.panicked, e1) => (Res.panicked, e1)
    | (Res.oof, e1) => (Res.oof, e1)
termination_by structural fuel => fuel

end

/-- `ExecutionEngine::call` (lines 122-131): count the exact-size
argument iterator, then `call_internal` pulling from it. -/
def call {V : Type} (h : Host V) (fuel : Nat) (e : EngineState V)
    (f : FunctionRef V) (args : List V) : Res V × EngineState V :=
  call_internal h fuel e f (ArgSrc.vals args) args.length

/-- `SlicePool<T, C>` from `src/collection_pool.rs` lines 17-21, with a
cached slice modelled by its contents (for both `Rc<[T]>` and `Box<[T]>`
the `Poolable::capacity` is the length).  `pool` is the bucket vector,
indexed by capacity; each bucket is a `VecDeque` (back = most recent). -/
structure SlicePool (V : Type) where
  pool : List (List (List V))
  max_cache_per : Nat

namespace SlicePool

/-- `SlicePool::with_max_cache_per` (lines 168-175): 100 empty buckets. -/
def with_max_cache_per (V : Type) (m : Nat) : SlicePool V :=
  { pool := List.replicate 100 [], max_cache_per := m }

/-- `Default for SlicePool` (lines 161-165): `with_max_cache_per(1000)`. -/
def default_slice_pool (V : Type) : SlicePool V := with_max_cache_per V 1000

/-- `SlicePool::insert` (lines 177-183): `pool.get_mut(capacity)` (a no-op
when the capacity has no bucket, i.e. is `≥ 100`), then `push_back` only
while the bucket holds fewer than `max_cache_per` slices. -/
def insert {V : Type} (p : SlicePool V) (c : List V) : SlicePool V :=
  match p.pool.get? c.length with
  | none => p
  | some bucket =>
    if bucket.length < p.max_cache_per then
      { p with pool := p.pool.set c.length (bucket ++ [c]) }
    else p

/-- `SlicePool::request` (lines 185-196): `pop_back` a cached slice of
that capacity when one exists, else allocate fresh with default-filled
contents (`Poolable::with_capacity`). -/
def request {V : Type} (h : Host V) (p : SlicePool V) (cap : Nat) :
    List V × SlicePool V :=
  match p.pool.get? cap with
  | some bucket =>
    match bucket.getLast? with
    | some c => (c, { p with pool := p.pool.set cap bucket.dropLast })
    | none => (List.replicate cap h.defaultV, p)
  | none => (List.replicate cap h.defaultV, p)

/-- `Poolable for Rc<[T]>::into_pool` (lines 87-94): the slice goes back
to the pool only when `Rc::strong_count + Rc::weak_count == 1`; otherwise
the handle is simply dropped (the other holders keep the slice alive). -/
def rc_into_pool {V : Type} (strong weak : Nat) (c : List V) (p : SlicePool V) :
    SlicePool V :=
  if strong + weak ≠ 1 then p else insert p c

/-- Well-formedness: the bucket vector still has its 100 buckets and
bucket `i` holds only slices of capacity `i` (every slice enters through
`insert`, which indexes the bucket by the slice's own capacity). -/
def WF {V : Type} (p : SlicePool V) : Prop :=
  p.pool.length = 100 ∧
    ∀ i bucket, p.pool.get? i = some bucket → ∀ c ∈ bucket, c.length = i

end SlicePool

/-! ## Concrete fixtures for witnesses

A minimal host over `Int` values: plain owned integers, no reference
cells, addition as binary operator `0`.  Used only to instantiate the
universally quantified theorems at concrete inputs. -/

/-- A concrete host over `Int`. -/
def intHost : Host Int where
  defaultV := 0
  uninitialized_reference := 0
  clone := id
  dupe_ref := id
  into_ref := id
  assignV := fun _ v => v
  cast_to_function := fun _ => none
  from_function_ref := fun _ => 0
  gen_list := fun _ => 0
  apply_1 := fun _ v => v
  apply_2 := fun _ a b => a + b
  initCall := fun _ _ => 0
  native := fun _ _ => Except.ok 0

/-- A small engine: empty registry, a 20-slot stack pool. -/
def eng0 : EngineState Int :=
  { num_globals := 0
    globals := []
    functions := []
    next_return_target := 0
    return_value := 0
    stack := { stack := List.replicate 20 0, base := 0 } }

/-- A `Fixed(2)` static reference at location 0 with a 2-slot frame. -/
def addRef : FunctionRef Int :=
  { arg_count := ArgCount.Fixed 2
    stack_size := 2
    location := 0
    function_type := FunctionType.Static
    layout := StackLayout.all_alloc }

/-- `add(a, b) = a + b` as a stored body. -/
def addFn : Function Int :=
  { expressions := [Expression.BinaryOpEval 0
      (Expression.Variable (VariableType.Stack 0))
      (Expression.Variable (VariableType.Stack 1))]
    stack_size := 2
    arg_count := ArgCount.Fixed 2
    return_target := 0 }

/-- The engine with `add` registered at location 0. -/
def engAdd : EngineState Int := { eng0 with functions := [addFn] }

/-! ## Claims -/

/-- C5 (counterexample): under the `variadic_functions` feature,
`ArgCount::new` on the inclusive range `2..=2` — equal normalised
bounds — yields `Range { min: 2, max: 2 }`, not `Fixed(2)`: the
claimed collapse does not happen in that configuration. -/
theorem c5_counterexample :
    arg_count_new_v (RBound.Included 2) (RBound.Included 2)
        = some (ArgCount.Range 2 2) ∧
      arg_count_new_v (RBound.Included 2) (RBound.Included 2)
        ≠ some (ArgCount.Fixed 2) := by
  decide

/-- C5 (amended): without the `variadic_functions` feature, `ArgCount::new`
collapses equal normalised bounds to `Fixed(n)`; with the feature, a spec
with a present end bound always builds a `Range` (so equal bounds stay
`Range{n,n}` and never collapse).  In both configurations `stack_size()`
is `n` for `Fixed(n)`, `max` for `Range{min,max}` and `max+1` for
`Variadic{min,max}`. -/
theorem c5_arg_count_new_normalization :
    (∀ lo hi : RBound, ∀ mx : Option Nat, hi.norm_end = some mx →
      lo.norm_start = mx.getD 0 →
      arg_count_new lo hi = some (ArgCount.Fixed lo.norm_start)) ∧
    (∀ lo hi : RBound, ∀ mx : Nat, hi.norm_end = some (some mx) →
      arg_count_new_v lo hi = some (ArgCount.Range lo.norm_start mx)) ∧
    (∀ n : Nat, ArgCount.stack_size (ArgCount.Fixed n) = n) ∧
    (∀ mn mx : Nat, ArgCount.stack_size (ArgCount.Range mn mx) = mx) ∧
    (∀ mn mx : Nat, ArgCount.stack_size (ArgCount.Variadic mn mx) = mx + 1) := by
  refine ⟨?_, ?_, fun _ => rfl, fun _ _ => rfl, fun _ _ => rfl⟩
  · intro lo hi mx hend heq
    simp [arg_count_new, hend, ← heq]
  · intro lo hi mx hend
    simp [arg_count_new_v, hend]

/-- C5 (witness): the amended theorem applied at `0..=0` (collapse without
the feature) and `2..=2` (no collapse with the feature). -/
theorem c5_witness :
    arg_count_new (RBound.Included 0) (RBound.Included 0)
        = some (ArgCount.Fixed 0) ∧
      arg_count_new_v (RBound.Included 2) (RBound.Included 2)
        = some (ArgCount.Range 2 2) ∧
      ArgCount.stack_size (ArgCount.Variadic 1 4) = 5 :=
  ⟨c5_arg_count_new_normalization.1 (RBound.Included 0) (RBound.Included 0)
      (some 0) rfl rfl,
    c5_arg_count_new_normalization.2.1 (RBound.Included 2) (RBound.Included 2)
      2 rfl,
    c5_arg_count_new_normalization.2.2.2.2 1 4⟩

/-- C6 (counterexample): the engine DOES impose an artificial limit: the
default stack pool pre-allocates 10000 slots and `StackPool::request`
panics (`none` in the model) as soon as `base + capacity` reaches the
pool length — here a single well-formed request of capacity 10000 on the
fresh default pool already panics with `Stack overflow`. -/
theorem c6_counterexample :
    StackPool.request (StackPool.default_pool intHost) 10000 = none := by
  unfold StackPool.request StackPool.default_pool StackPool.with_capacity
  rw [List.length_replicate]
  norm_num

/-- C6 (amended): the stack pool is a fixed pre-allocated buffer (10000
slots by default, `base = 0`); a `request(cap)` succeeds iff
`base + cap < stack.len()` and panics otherwise, so a nested sequence of
per-call acquisitions completes without panicking iff every cumulative
prefix of requested capacities stays strictly below the pool length —
recursion depth is bounded by the pool, not only by the host stack. -/
theorem c6_stack_pool_overflow_bound :
    (∀ (V : Type) (h : Host V),
      (StackPool.default_pool h (V := V)).stack.length = 10000 ∧
        (StackPool.default_pool h (V := V)).base = 0) ∧
    (∀ (V : Type) (p : StackPool V) (cap : Nat),
      (p.request cap).isSome ↔ p.base + cap < p.stack.length) ∧
    (∀ (V : Type) (p : StackPool V) (caps : List Nat),
      (p.request_all caps).isSome ↔
        ∀ i, i < caps.length →
          p.base + ((caps.take (i + 1)).sum) < p.stack.length) := by
  refine ⟨?_, ?_, ?_⟩
  · intro V h
    refine ⟨?_, rfl⟩
    show (List.replicate 10000 h.defaultV).length = 10000
    exact List.length_replicate 10000 _
  · intro V p cap
    simp only [StackPool.request]
    constructor
    · intro hs
      by_contra hlt
      simp [ge_iff_le, Nat.le_of_not_lt hlt] at hs
    · intro hlt
      simp [Nat.not_le.mpr hlt]
  · intro V p caps
    induction caps generalizing p with
    | nil => simp [StackPool.request_all]
    | cons c rest ih =>
      simp only [StackPool.request_all, StackPool.request]
      by_cases hc : p.base + c ≥ p.stack.length
      · simp only [hc, if_true]
        simp only [Option.isSome_none, Bool.false_eq_true, false_iff]
        intro hall
        exact absurd (hall 0 (by simp)) (by simpa using hc)
      · simp only [hc, if_false]
        rw [ih]
        constructor
        · intro hall i hi
          match i with
          | 0 => simpa using Nat.lt_of_not_le (by simpa using hc)
          | j + 1 =>
            have := hall j (by simpa using hi)
            simp only [List.take, List.sum_cons] at this ⊢
            omega
        · intro hall i hi
          have := hall (i + 1) (by simpa using hi)
          simp only [List.take, List.sum_cons] at this ⊢
          omega

/-- C6 (witness): the amended theorem applied at the default pool with a
two-request trace `[3, 4]` (succeeds: 3 < 10000 and 7 < 10000). -/
theorem c6_witness :
    ((StackPool.default_pool intHost).request_all [3, 4]).isSome = true := by
  rw [c6_stack_pool_overflow_bound.2.2]
  intro i hi
  have hlen : (StackPool.default_pool intHost).stack.length = 10000 :=
    (c6_stack_pool_overflow_bound.1 Int intHost).1
  have hbase : (StackPool.default_pool intHost).base = 0 :=
    (c6_stack_pool_overflow_bound.1 Int intHost).2
  rw [hlen, hbase]
  have h2 : i < 2 := by simpa using hi
  interval_cases i <;> decide

/-- C7 (counterexample): `ExecutionEngine::new` starts with
`num_globals = 0` and `create_global` never updates `num_globals`, so on
the sequence `create_global(); reset_globals()` from a fresh engine the
issued address 0 no longer designates any cell: `reset_globals`
re-populates `globals` with `num_globals = 0` cells. -/
theorem c7_counterexample :
    (EngineState.create_global intHost (EngineState.new intHost)).1 = 0 ∧
      (EngineState.reset_globals intHost
        (EngineState.create_global intHost (EngineState.new intHost)).2).globals
          = [] := by
  constructor
  · simp [EngineState.new, EngineState.create_global]
  · simp [EngineState.new, EngineState.create_global, EngineState.reset_globals]

/-- C7 (amended): `create_global` appends exactly one uninitialized
reference cell and returns its index, preserving every previously issued
address, and addresses stay valid across any sequence of further
`create_global`s; `reset_globals` re-populates `globals` with
`num_globals` uninitialized cells — but since `create_global` does not
update `num_globals`, a `reset_globals` invalidates every address `≥
num_globals` that `create_global` issued. -/
theorem c7_globals_growth :
    (∀ (V : Type) (h : Host V) (e : EngineState V),
      (EngineState.create_global h e).1 = e.globals.length ∧
        (EngineState.create_global h e).2.globals
          = e.globals ++ [h.uninitialized_reference]) ∧
    (∀ (V : Type) (h : Host V) (e : EngineState V) (a : Nat),
      a < e.globals.length →
      (EngineState.create_global h e).2.globals.get? a = e.globals.get? a) ∧
    (∀ (V : Type) (h : Host V) (n : Nat) (e : EngineState V) (a : Nat),
      a < e.globals.length →
      (EngineState.create_globals_iter h n e).globals.get? a = e.globals.get? a) ∧
    (∀ (V : Type) (h : Host V) (e : EngineState V),
      (EngineState.reset_globals h e).globals
        = List.replicate e.num_globals h.uninitialized_reference) ∧
    (∀ (V : Type) (h : Host V) (e : EngineState V) (a : Nat),
      e.num_globals ≤ a →
      (EngineState.reset_globals h e).globals.get? a = none) := by
  refine ⟨fun V h e => ⟨rfl, rfl⟩, ?_, ?_, fun V h e => rfl, ?_⟩
  · intro V h e a ha
    simp [EngineState.create_global, List.getElem?_append_left ha]
  · intro V h n
    induction n with
    | zero => intro e a ha; rfl
    | succ m ih =>
      intro e a ha
      have step :
          (EngineState.create_global h e).2.globals.get? a = e.globals.get? a := by
        simp [EngineState.create_global, List.getElem?_append_left ha]
      have hlt : a < (EngineState.create_global h e).2.globals.length := by
        simp only [EngineState.create_global, List.length_append,
          List.length_singleton]
        omega
      calc (EngineState.create_globals_iter h (m + 1) e).globals.get? a
          = (EngineState.create_globals_iter h m
              (EngineState.create_global h e).2).globals.get? a := rfl
        _ = (EngineState.create_global h e).2.globals.get? a := ih _ a hlt
        _ = e.globals.get? a := step
  · intro V h e a ha
    simp [EngineState.reset_globals, List.get?_eq_none.mpr, ha]

/-- C7 (witness): the amended theorem applied at a concrete engine with
one existing global: `create_global` returns address 1, address 0 is
preserved by two more `create_global`s, and `reset_globals` with
`num_globals = 0` invalidates address 0. -/
theorem c7_witness :
    (EngineState.create_global intHost { eng0 with globals := [5] }).1 = 1 ∧
      (EngineState.create_globals_iter intHost 2
        { eng0 with globals := [5] }).globals.get? 0 = some 5 ∧
      (EngineState.reset_globals intHost
        { eng0 with globals := [5] }).globals.get? 0 = none :=
  ⟨by
      have := (c7_globals_growth.1 Int intHost { eng0 with globals := [5] }).1
      simpa using this,
    by
      have := c7_globals_growth.2.2.1 Int intHost 2
        { eng0 with globals := [5] } 0 (by simp)
      simpa using this,
    by
      have := c7_globals_growth.2.2.2.2 Int intHost
        { eng0 with globals := [5] } 0 (by simp [eng0])
      simpa using this⟩

/-- C9: `FunctionRef` equality compares only the dispatch kind and the
location: `a == b` iff `a.location == b.location` and not exactly one of
the two is `Native`; `arg_count`, `stack_size`, `layout` and any captured
values are ignored, so a `CapturingDef` template equals the
`CapturingRef` materialised from it at the same location. -/
theorem c9_function_ref_eq_location_only :
    (∀ (V : Type) (a b : FunctionRef V),
      function_ref_eq a b = true ↔
        (a.location = b.location ∧
          (a.function_type.isNative = true ↔ b.function_type.isNative = true))) ∧
    (∀ (V : Type) (a b : FunctionRef V) (sites : List VariableType)
        (caps : List V),
      a.function_type = FunctionType.CapturingDef sites →
      b.function_type = FunctionType.CapturingRef caps →
      a.location = b.location →
      function_ref_eq a b = true) ∧
    (∀ (V : Type) (a b : FunctionRef V) (ac : ArgCount) (ss : Nat)
        (ly : StackLayout),
      function_ref_eq { a with arg_count := ac, stack_size := ss, layout := ly } b
        = function_ref_eq a b) := by
  refine ⟨?_, ?_, ?_⟩
  · intro V a b
    cases ha : a.function_type <;> cases hb : b.function_type <;>
      simp [function_ref_eq, ha, hb, FunctionType.isNative]
  · intro V a b sites caps ha hb hloc
    simp [function_ref_eq, ha, hb, hloc]
  · intro V a b ac ss ly
    cases a with
    | mk ac0 ss0 loc0 ft0 ly0 =>
      cases b with
      | mk ac1 ss1 loc1 ft1 ly1 =>
        cases ft0 <;> cases ft1 <;> rfl

/-- C9 (witness): the theorem applied to a concrete `CapturingDef`
template and the `CapturingRef` materialised at the same location 3. -/
theorem c9_witness :
    function_ref_eq
        { arg_count := ArgCount.Fixed 1, stack_size := 5, location := 3,
          function_type := FunctionType.CapturingDef [VariableType.Stack 0],
          layout := StackLayout.all_alloc }
        { arg_count := ArgCount.Fixed 2, stack_size := 9, location := 3,
          function_type := FunctionType.CapturingRef ([4] : List Int),
          layout := StackLayout.no_alloc } = true :=
  c9_function_ref_eq_location_only.2.1 Int _ _ [VariableType.Stack 0] [4]
    rfl rfl rfl

/-- A list contains its `getLast?`. -/
theorem list_getLast?_mem {α : Type} {l : List α} {a : α}
    (h : l.getLast? = some a) : a ∈ l := by
  have hmem : a ∈ l.getLast? := by rw [Option.mem_def, h]
  have := List.dropLast_append_getLast? a hmem
  rw [← this]
  exact List.mem_append_right _ (by simp)

/-- C8: `request(cap)` on a well-formed pool returns a slice of capacity
exactly `cap` — the most recently cached one of that capacity when the
bucket is non-empty, otherwise a fresh default-filled slice; `insert`
caches a slice only when its capacity has a bucket (the 100 tracked
capacities) and that bucket holds fewer than `max_cache_per` slices
(1000 by default), dropping it otherwise; and an `Rc` slice re-enters the
pool only when its combined strong and weak count is one. -/
theorem c8_slice_pool_spec :
    (∀ (V : Type) (h : Host V) (p : SlicePool V) (cap : Nat),
      SlicePool.WF p → (SlicePool.request h p cap).1.length = cap) ∧
    (∀ (V : Type) (h : Host V) (p : SlicePool V) (cap : Nat),
      SlicePool.WF p → 100 ≤ cap →
      SlicePool.request h p cap = (List.replicate cap h.defaultV, p)) ∧
    (∀ (V : Type) (h : Host V) (p : SlicePool V) (cap : Nat),
      p.pool.get? cap = some [] →
      SlicePool.request h p cap = (List.replicate cap h.defaultV, p)) ∧
    (∀ (V : Type) (h : Host V) (p : SlicePool V) (cap : Nat)
        (bucket : List (List V)) (c : List V),
      p.pool.get? cap = some bucket → bucket.getLast? = some c →
      SlicePool.request h p cap
        = (c, { p with pool := p.pool.set cap bucket.dropLast })) ∧
    (∀ (V : Type) (p : SlicePool V) (c : List V) (bucket : List (List V)),
      p.pool.get? c.length = some bucket → bucket.length < p.max_cache_per →
      SlicePool.insert p c
        = { p with pool := p.pool.set c.length (bucket ++ [c]) }) ∧
    (∀ (V : Type) (p : SlicePool V) (c : List V),
      (p.pool.get? c.length = none ∨
        ∃ bucket, p.pool.get? c.length = some bucket ∧
          p.max_cache_per ≤ bucket.length) →
      SlicePool.insert p c = p) ∧
    (∀ (V : Type) (strong weak : Nat) (c : List V) (p : SlicePool V),
      (strong + weak ≠ 1 → SlicePool.rc_into_pool strong weak c p = p) ∧
      (strong + weak = 1 →
        SlicePool.rc_into_pool strong weak c p = SlicePool.insert p c)) ∧
    (∀ (V : Type),
      (SlicePool.default_slice_pool V).max_cache_per = 1000 ∧
        ∀ m, (SlicePool.with_max_cache_per V m).pool.length = 100) := by
  refine ⟨?_, ?_, ?_, ?_, ?_, ?_, ?_, ?_⟩
  · intro V h p cap hwf
    unfold SlicePool.request
    cases hb : p.pool.get? cap with
    | none => simp
    | some bucket =>
      cases hl : bucket.getLast? with
      | none => simp [hl]
      | some c =>
        simp only [hl]
        exact hwf.2 cap bucket hb c (list_getLast?_mem hl)
  · intro V h p cap hwf hcap
    unfold SlicePool.request
    have hnone : p.pool.get? cap = none := by
      rw [List.get?_eq_none, hwf.1]
      exact hcap
    rw [hnone]
  · intro V h p cap hb
    unfold SlicePool.request
    rw [hb]
    rfl
  · intro V h p cap bucket c hb hl
    unfold SlicePool.request
    rw [hb]
    simp [hl]
  · intro V p c bucket hb hlt
    unfold SlicePool.insert
    rw [hb]
    simp [hlt]
  · intro V p c hcase
    unfold SlicePool.insert
    cases hcase with
    | inl hnone => rw [hnone]
    | inr hfull =>
      obtain ⟨bucket, hb, hfull⟩ := hfull
      rw [hb]
      simp [Nat.not_lt.mpr hfull]
  · intro V strong weak c p
    constructor
    · intro hne
      simp [SlicePool.rc_into_pool, hne]
    · intro heq
      simp [SlicePool.rc_into_pool, heq]
  · intro V
    exact ⟨rfl, fun m => List.length_replicate 100 _⟩

/-- C8 (witness): the theorem applied at a concrete well-formed pool with
one cached slice of capacity 2. -/
theorem c8_witness :
    (SlicePool.request intHost
        { pool := [[], [], [[7, 8]]] ++ List.replicate 97 [],
          max_cache_per := 1000 } 2).1 = ([7, 8] : List Int) := by
  have := c8_slice_pool_spec.2.2.2.1 Int intHost
    { pool := [[], [], [[7, 8]]] ++ List.replicate 97 [], max_cache_per := 1000 }
    2 [[7, 8]] [7, 8] (by rfl) (by rfl)
  rw [this]

/-- C1 (code-bug evidence): `call_internal` requests the frame slice
BEFORE validating the arity (`execution_engine.rs:139`) and the arity
error path returns without `release` (`:141-146`), so calling a
`Fixed(2)` function with one argument returns `IncorrectArgumentCount`
while leaving the pool's base offset advanced by the function's
`stack_size = 2` — the slice is never released, contradicting the claimed
scoped-acquisition discipline. -/
theorem c1_stack_slice_leaked_on_arity_error :
    (call intHost 5 eng0 addRef [1]).1
        = Res.err (FreightError.IncorrectArgumentCount 2 (some 2) 1) ∧
      (call intHost 5 eng0 addRef [1]).2.stack.base = 2 ∧
      eng0.stack.base = 0 :=
  ⟨rfl, rfl, rfl⟩

/-- C2: `valid_arg_count(k)` holds iff `min ≤ k ≤ max` (with no upper
constraint for `Variadic`), and whenever it fails, `call` returns
`IncorrectArgumentCount` carrying `expected_min = arg_count.min()`,
`expected_max = arg_count.max()` and `actual = k` (provided the initial
frame request itself does not overflow the pool). -/
theorem c2_arity_mismatch_error :
    (∀ (c : ArgCount) (k : Nat),
      c.valid_arg_count k = true ↔
        (c.min ≤ k ∧ ∀ mx, c.max = some mx → k ≤ mx)) ∧
    (∀ (V : Type) (h : Host V) (fuel : Nat) (e : EngineState V)
        (f : FunctionRef V) (args : List V),
      f.arg_count.valid_arg_count args.length = false →
      e.stack.base + f.stack_size < e.stack.stack.length →
      (call h (fuel + 1) e f args).1
        = Res.err (FreightError.IncorrectArgumentCount f.arg_count.min
            f.arg_count.max args.length)) := by
  constructor
  · intro c k
    cases c with
    | Fixed n =>
      simp only [ArgCount.valid_arg_count, ArgCount.min, ArgCount.max,
        decide_eq_true_eq, Option.some.injEq]
      constructor
      · rintro rfl
        exact ⟨Nat.le_refl _, fun mx hmx => hmx ▸ Nat.le_refl _⟩
      · rintro ⟨hle, hub⟩
        exact Nat.le_antisymm (hub n rfl) hle
    | Range mn mx =>
      simp only [ArgCount.valid_arg_count, ArgCount.min, ArgCount.max,
        Bool.and_eq_true, decide_eq_true_eq, ge_iff_le, Option.some.injEq]
      constructor
      · rintro ⟨hlo, hhi⟩
        exact ⟨hlo, fun m hm => hm ▸ hhi⟩
      · rintro ⟨hlo, hub⟩
        exact ⟨hlo, hub mx rfl⟩
    | Variadic mn mx =>
      simp [ArgCount.valid_arg_count, ArgCount.min, ArgCount.max]
  · intro V h fuel e f args hbad hroom
    have hreq : e.stack.request f.stack_size
        = some (e.stack.base,
            { e.stack with base := e.stack.base + f.stack_size }) := by
      unfold StackPool.request
      rw [if_neg (by omega)]
    unfold call call_internal
    rw [hreq]
    simp [hbad]

/-- C2 (witness): the theorem applied at `Fixed(2)` with one argument —
the literal scenario S2: `IncorrectArgumentCount{min: 2, max: Some(2),
actual: 1}`. -/
theorem c2_witness :
    (ArgCount.valid_arg_count (ArgCount.Fixed 2) 1 = true ↔
      (2 ≤ 1 ∧ ∀ mx, (ArgCount.Fixed 2).max = some mx → 1 ≤ mx)) ∧
    (call intHost 5 eng0 addRef [1]).1
        = Res.err (FreightError.IncorrectArgumentCount 2 (some 2) 1) :=
  ⟨c2_arity_mismatch_error.1 (ArgCount.Fixed 2) 1,
    c2_arity_mismatch_error.2 Int intHost 4 eng0 addRef [1] (by decide)
      (by decide)⟩

/-- C3: `Return(t, E)` evaluates `E`, stores its value in the engine's
`return_value` slot and raises `Return{target = t}`; `ReturnTarget(t,
inner)` yields `inner`'s value when `inner` succeeds, yields (and
consumes) the engine's `return_value` when `inner` fails with
`Return{target = t}`, and propagates every other error unchanged — in
particular a `Return{target = t'}` with `t' ≠ t`, raised at any depth
inside `inner`, passes the `ReturnTarget` untouched. -/
theorem c3_return_and_return_target :
    ∀ (V : Type) (h : Host V) (fuel : Nat) (e : EngineState V) (t : Nat)
      (x : Expression V) (off flen : Nat) (captured : List V),
      (∀ v e1, evaluate h fuel e x off flen captured = (Res.ok v, e1) →
        evaluate h (fuel + 1) e (Expression.Return t x) off flen captured
          = (Res.err (FreightError.Return t), { e1 with return_value := v })) ∧
      (∀ v e1, evaluate h fuel e x off flen captured = (Res.ok v, e1) →
        evaluate h (fuel + 1) e (Expression.ReturnTarget t x) off flen captured
          = (Res.ok v, e1)) ∧
      (∀ e1,
        evaluate h fuel e x off flen captured
          = (Res.err (FreightError.Return t), e1) →
        evaluate h (fuel + 1) e (Expression.ReturnTarget t x) off flen captured
          = (Res.ok e1.return_value, { e1 with return_value := h.defaultV })) ∧
      (∀ er e1, evaluate h fuel e x off flen captured = (Res.err er, e1) →
        (∀ t', er = FreightError.Return t' → t' ≠ t) →
        evaluate h (fuel + 1) e (Expression.ReturnTarget t x) off flen captured
          = (Res.err er, e1)) := by
  intro V h fuel e t x off flen captured
  refine ⟨?_, ?_, ?_, ?_⟩
  · intro v e1 hx
    simp only [evaluate, hx]
  · intro v e1 hx
    simp only [evaluate, hx, or_return]
  · intro e1 hx
    simp [evaluate, hx, or_return]
  · intro er e1 hx hne
    simp only [evaluate, hx, or_return]
    cases er with
    | Return t' => simp [or_return, hne t' rfl]
    | InvalidInvocationTarget => rfl
    | IncorrectArgumentCount a b c => rfl

/-- C3 (witness): the theorem applied at concrete inputs — `Return(0,
RawValue 7)` stores 7 and raises `Return{0}`; `ReturnTarget(0, that)`
yields 7; `ReturnTarget(0, Return(1, …))` re-raises `Return{1}`. -/
theorem c3_witness :
    evaluate intHost 3 eng0 (Expression.Return 0 (Expression.RawValue 7)) 0 0 []
        = (Res.err (FreightError.Return 0), { eng0 with return_value := 7 }) ∧
      evaluate intHost 4 eng0
          (Expression.ReturnTarget 0 (Expression.Return 0 (Expression.RawValue 7)))
          0 0 []
        = (Res.ok 7, { { eng0 with return_value := 7 }
            with return_value := intHost.defaultV }) ∧
      evaluate intHost 4 eng0
          (Expression.ReturnTarget 0 (Expression.Return 1 (Expression.RawValue 7)))
          0 0 []
        = (Res.err (FreightError.Return 1), { eng0 with return_value := 7 }) :=
  ⟨(c3_return_and_return_target Int intHost 2 eng0 0 (Expression.RawValue 7)
      0 0 []).1 7 eng0 rfl,
    (c3_return_and_return_target Int intHost 3 eng0 0
      (Expression.Return 0 (Expression.RawValue 7)) 0 0 []).2.2.1
      { eng0 with return_value := 7 } rfl,
    (c3_return_and_return_target Int intHost 3 eng0 0
      (Expression.Return 1 (Expression.RawValue 7)) 0 0 []).2.2.2
      (FreightError.Return 1) { eng0 with return_value := 7 } rfl
      (by intro t' ht'; cases ht'; decide)⟩

/-- C4: a function body executes its expressions in order: with the frame
large enough for the arity pre-check, an empty body returns the default
value and a non-empty one runs the expression loop; in the loop, a
non-final expression that succeeds passes control to the next one, one
that fails with `Return{target = t}` either ends the call with the
engine's `return_value` (when `t` equals the body's `return_target`) or
re-raises the `Return` with no further expression evaluated (when it
differs), and the final expression's result goes through the same
`or_return` catch at the body's `return_target`. -/
theorem c4_function_body_execution :
    ∀ (V : Type) (h : Host V) (fuel : Nat) (e : EngineState V)
      (off flen : Nat) (captured : List V),
      (∀ fn : Function V, fn.expressions = [] →
        (match fn.arg_count.max with
          | some mx => mx ≤ flen
          | none => True) →
        func_call h (fuel + 1) e fn off flen captured = (Res.ok h.defaultV, e)) ∧
      (∀ fn : Function V, fn.expressions ≠ [] →
        (match fn.arg_count.max with
          | some mx => mx ≤ flen
          | none => True) →
        func_call h (fuel + 1) e fn off flen captured
          = body_loop h fuel e fn.expressions fn.return_target off flen captured) ∧
      (∀ (x y : Expression V) (rest : List (Expression V)) (rt : Nat)
          (v : V) (e1 : EngineState V),
        evaluate h fuel e x off flen captured = (Res.ok v, e1) →
        body_loop h (fuel + 1) e (x :: y :: rest) rt off flen captured
          = body_loop h fuel e1 (y :: rest) rt off flen captured) ∧
      (∀ (x y : Expression V) (rest : List (Expression V)) (rt : Nat)
          (e1 : EngineState V),
        evaluate h fuel e x off flen captured
          = (Res.err (FreightError.Return rt), e1) →
        body_loop h (fuel + 1) e (x :: y :: rest) rt off flen captured
          = (Res.ok e1.return_value, { e1 with return_value := h.defaultV })) ∧
      (∀ (x y : Expression V) (rest : List (Expression V)) (rt t : Nat)
          (e1 : EngineState V),
        evaluate h fuel e x off flen captured
          = (Res.err (FreightError.Return t), e1) → t ≠ rt →
        body_loop h (fuel + 1) e (x :: y :: rest) rt off flen captured
          = (Res.err (FreightError.Return t), e1)) ∧
      (∀ (x : Expression V) (rt : Nat),
        body_loop h (fuel + 1) e [x] rt off flen captured
          = or_return h (evaluate h fuel e x off flen captured) rt) := by
  intro V h fuel e off flen captured
  refine ⟨?_, ?_, ?_, ?_, ?_, ?_⟩
  · intro fn hempty harity
    unfold func_call
    have hbad : (match fn.arg_count.max with
        | some mx => decide (mx > flen)
        | none => false) = false := by
      cases hmx : fn.arg_count.max with
      | none => rfl
      | some mx =>
        rw [hmx] at harity
        simpa using harity
    rw [hbad]
    simp [hempty]
  · intro fn hne harity
    unfold func_call
    have hbad : (match fn.arg_count.max with
        | some mx => decide (mx > flen)
        | none => false) = false := by
      cases hmx : fn.arg_count.max with
      | none => rfl
      | some mx =>
        rw [hmx] at harity
        simpa using harity
    rw [hbad]
    simp [List.isEmpty_iff, hne]
  · intro x y rest rt v e1 hx
    simp only [body_loop, hx]
  · intro x y rest rt e1 hx
    simp [body_loop, hx]
  · intro x y rest rt t e1 hx hne
    simp [body_loop, hx, hne]
  · intro x rt
    simp only [body_loop]

/-- C4 (witness): the theorem applied at concrete inputs — an empty
`Fixed(0)` body returns the default value; a non-final `Return{5}` with
`return_target = 5` ends the body with the stored value 9. -/
theorem c4_witness :
    func_call intHost 3 eng0
        { expressions := [], stack_size := 0, arg_count := ArgCount.Fixed 0,
          return_target := 0 } 0 0 [] = (Res.ok 0, eng0) ∧
      body_loop intHost 3 eng0
          [Expression.Return 5 (Expression.RawValue 9), Expression.RawValue 0]
          5 0 0 []
        = (Res.ok 9, { { eng0 with return_value := 9 }
            with return_value := intHost.defaultV }) :=
  ⟨(c4_function_body_execution Int intHost 2 eng0 0 0 []).1
      { expressions := [], stack_size := 0, arg_count := ArgCount.Fixed 0,
        return_target := 0 } rfl (Nat.le_refl 0),
    (c4_function_body_execution Int intHost 2 eng0 0 0 []).2.2.2.1
      (Expression.Return 5 (Expression.RawValue 9)) (Expression.RawValue 0)
      [] 5 { eng0 with return_value := 9 } rfl⟩

/-- C10: catching a `Return` signal consumes the engine's `return_value`:
`or_return` on a matching `Return{target}` yields the stored value and
resets the slot to the default value (`mem::take`), and both catch sites
— a `ReturnTarget` expression and the function-body boundary (final or
non-final expression) — therefore leave `return_value` equal to the
default value whenever a call returns through a caught `Return`. -/
theorem c10_catch_consumes_return_value :
    (∀ (V : Type) (h : Host V) (t : Nat) (e : EngineState V),
      or_return h (Res.err (FreightError.Return t), e) t
        = (Res.ok e.return_value, { e with return_value := h.defaultV })) ∧
    (∀ (V : Type) (h : Host V) (fuel : Nat) (e e1 : EngineState V) (t : Nat)
        (x : Expression V) (off flen : Nat) (captured : List V),
      evaluate h fuel e x off flen captured
        = (Res.err (FreightError.Return t), e1) →
      evaluate h (fuel + 1) e (Expression.ReturnTarget t x) off flen captured
        = (Res.ok e1.return_value, { e1 with return_value := h.defaultV })) ∧
    (∀ (V : Type) (h : Host V) (fuel : Nat) (e e1 : EngineState V)
        (x y : Expression V) (rest : List (Expression V)) (rt off flen : Nat)
        (captured : List V),
      evaluate h fuel e x off flen captured
        = (Res.err (FreightError.Return rt), e1) →
      body_loop h (fuel + 1) e (x :: y :: rest) rt off flen captured
        = (Res.ok e1.return_value, { e1 with return_value := h.defaultV })) ∧
    (∀ (V : Type) (h : Host V) (fuel : Nat) (e e1 : EngineState V)
        (x : Expression V) (rt off flen : Nat) (captured : List V),
      evaluate h fuel e x off flen captured
        = (Res.err (FreightError.Return rt), e1) →
      body_loop h (fuel + 1) e [x] rt off flen captured
        = (Res.ok e1.return_value, { e1 with return_value := h.defaultV })) := by
  refine ⟨?_, ?_, ?_, ?_⟩
  · intro V h t e
    simp [or_return]
  · intro V h fuel e e1 t x off flen captured hx
    simp [evaluate, hx, or_return]
  · intro V h fuel e e1 x y rest rt off flen captured hx
    simp [body_loop, hx]
  · intro V h fuel e e1 x rt off flen captured hx
    simp [body_loop, hx, or_return]

/-- C10 (witness): the theorem applied at concrete inputs — after
catching, the engine's `return_value` is back to the default value 0. -/
theorem c10_witness :
    or_return intHost
        (Res.err (FreightError.Return 4), { eng0 with return_value := 11 }) 4
        = (Res.ok 11, { { eng0 with return_value := 11 }
            with return_value := intHost.defaultV }) ∧
      evaluate intHost 4 eng0
          (Expression.ReturnTarget 2 (Expression.Return 2 (Expression.RawValue 6)))
          0 0 []
        = (Res.ok 6, { { eng0 with return_value := 6 }
            with return_value := intHost.defaultV }) :=
  ⟨by
      have := c10_catch_consumes_return_value.1 Int intHost 4
        { eng0 with return_value := 11 }
      simpa using this,
    c10_catch_consumes_return_value.2.1 Int intHost 3 eng0
      { eng0 with return_value := 6 } 2 (Expression.Return 2 (Expression.RawValue 6))
      0 0 [] rfl⟩

end Freight
